import Mathlib

/-!
Shallow embedding of `module/zipwalker.py` (a forward-scanning ZIP structure
analyzer) and proofs about it.

Buffers are `List Nat` of byte values.  Python string slicing `data[a:b]`
never fails and silently clamps to the available bytes; `struct.unpack`
demands an exact-length slice and raises otherwise.  Both behaviours are
reproduced literally.  The two uses of never-assigned local variables in the
source (`zip_comment_length` in `CentralDirectoryEnd.__init__` and `data` in
the final overlay branch of `Zip.__init__`) are modelled as `nameError`
failures, matching the `NameError` CPython would raise there.
-/

set_option maxRecDepth 40000

namespace ZipWalker

/-- Byte at index `i` of a buffer, `0` when out of range (bounds are always
checked separately before this value is used, mirroring the exact-length
check of `struct.unpack`). -/
def byteAt (data : List Nat) (i : Nat) : Nat := data.getD i 0

/-- Value of the little-endian 16-bit integer stored at offset `off`. -/
def u16At (data : List Nat) (off : Nat) : Nat :=
  byteAt data off + 256 * byteAt data (off + 1)

/-- Value of the little-endian 32-bit integer stored at offset `off`. -/
def u32At (data : List Nat) (off : Nat) : Nat :=
  byteAt data off + 256 * byteAt data (off + 1) + 65536 * byteAt data (off + 2) +
    16777216 * byteAt data (off + 3)

/-- Python slice `data[a:b]` with non-negative bounds: clamped, never fails. -/
def listSlice (data : List Nat) (a b : Nat) : List Nat :=
  (data.drop a).take (b - a)

/-- The failure modes of the walker: a signature assertion
(`raise Exception(...Signature Invalid)`), a short `struct.unpack`
(`struct.error`), or a read of a never-assigned local variable
(`NameError`). -/
inductive ZipErr where
  | signatureInvalid (record : String)
  | structError (offset : Nat)
  | nameError (name : String)
deriving DecidableEq, Repr

/-- `struct.unpack('<H', data[off:off+2])[0]`: fails unless exactly two bytes
are available starting at `off`. -/
def readU16 (data : List Nat) (off : Nat) : Except ZipErr Nat :=
  if off + 2 ≤ data.length then .ok (u16At data off) else .error (.structError off)

/-- `struct.unpack('<I', data[off:off+4])[0]`: fails unless exactly four bytes
are available starting at `off`. -/
def readU32 (data : List Nat) (off : Nat) : Except ZipErr Nat :=
  if off + 4 ≤ data.length then .ok (u32At data off) else .error (.structError off)

/-- `'\x50\x4b\x03\x04'`, the local file header magic. -/
def localSig : List Nat := [0x50, 0x4B, 0x03, 0x04]

/-- `'\x50\x4b\x01\x02'`, the central directory header magic. -/
def cdSig : List Nat := [0x50, 0x4B, 0x01, 0x02]

/-- `'\x50\x4b\x05\x06'`, the end-of-central-directory magic. -/
def eocdSig : List Nat := [0x50, 0x4B, 0x05, 0x06]

/-- `'\x50\x4b\x07\x08'`, the data descriptor magic. -/
def descSig : List Nat := [0x50, 0x4B, 0x07, 0x08]

/-- The fields `ZipLocalHeader.__init__` stores on `self`.  `filename` and
`extra_field` stay `None` (here `none`) when their length field is zero. -/
structure ZipLocalHeader where
  signature : List Nat
  version : Nat
  flag : Nat
  compression_method : Nat
  last_modify_time : Nat
  last_modify_date : Nat
  crc32 : Nat
  compressed_size : Nat
  uncompressed_size : Nat
  filename_length : Nat
  extra_field_length : Nat
  filename : Option (List Nat)
  extra_field : Option (List Nat)
  encrypted : Bool
  length : Nat
deriving DecidableEq, Repr

/-- `ZipLocalHeader.__init__(data)`, line by line: signature assertion first,
then the fixed 30-byte part via `struct.unpack`, then the two
length-prefixed variable fields via plain (clamping) slices. -/
def parseLocalHeader (data : List Nat) : Except ZipErr ZipLocalHeader :=
  if listSlice data 0 4 ≠ localSig then .error (.signatureInvalid "LocalHeader") else
  match readU16 data 4 with
  | .error e => .error e
  | .ok version =>
  match readU16 data 6 with
  | .error e => .error e
  | .ok flag =>
  match readU16 data 8 with
  | .error e => .error e
  | .ok compression_method =>
  match readU16 data 10 with
  | .error e => .error e
  | .ok last_modify_time =>
  match readU16 data 12 with
  | .error e => .error e
  | .ok last_modify_date =>
  match readU32 data 14 with
  | .error e => .error e
  | .ok crc32 =>
  match readU32 data 18 with
  | .error e => .error e
  | .ok compressed_size =>
  match readU32 data 22 with
  | .error e => .error e
  | .ok uncompressed_size =>
  match readU16 data 26 with
  | .error e => .error e
  | .ok filename_length =>
  match readU16 data 28 with
  | .error e => .error e
  | .ok extra_field_length =>
    .ok
      { signature := listSlice data 0 4
        version := version
        flag := flag
        compression_method := compression_method
        last_modify_time := last_modify_time
        last_modify_date := last_modify_date
        crc32 := crc32
        compressed_size := compressed_size
        uncompressed_size := uncompressed_size
        filename_length := filename_length
        extra_field_length := extra_field_length
        filename :=
          if 0 < filename_length then
            some (listSlice data 30 (30 + filename_length))
          else none
        extra_field :=
          if 0 < extra_field_length then
            some (listSlice data (30 + filename_length)
              (30 + filename_length + extra_field_length))
          else none
        encrypted := flag &&& 1 != 0
        length := 30 + filename_length + extra_field_length }

/-- The header `parseLocalHeader` produces on a buffer whose signature matches
and whose fixed part is complete (30 bytes available). -/
def localHeaderOf (data : List Nat) : ZipLocalHeader :=
  { signature := listSlice data 0 4
    version := u16At data 4
    flag := u16At data 6
    compression_method := u16At data 8
    last_modify_time := u16At data 10
    last_modify_date := u16At data 12
    crc32 := u32At data 14
    compressed_size := u32At data 18
    uncompressed_size := u32At data 22
    filename_length := u16At data 26
    extra_field_length := u16At data 28
    filename :=
      if 0 < u16At data 26 then
        some (listSlice data 30 (30 + u16At data 26))
      else none
    extra_field :=
      if 0 < u16At data 28 then
        some (listSlice data (30 + u16At data 26)
          (30 + u16At data 26 + u16At data 28))
      else none
    encrypted := u16At data 6 &&& 1 != 0
    length := 30 + u16At data 26 + u16At data 28 }

lemma readU16_eq_ok (data : List Nat) (off : Nat) (h : off + 2 ≤ data.length) :
    readU16 data off = .ok (u16At data off) := by
  unfold readU16
  rw [if_pos h]

lemma readU32_eq_ok (data : List Nat) (off : Nat) (h : off + 4 ≤ data.length) :
    readU32 data off = .ok (u32At data off) := by
  unfold readU32
  rw [if_pos h]

lemma readU16_ok_inv (data : List Nat) (off v : Nat) (h : readU16 data off = .ok v) :
    off + 2 ≤ data.length ∧ v = u16At data off := by
  unfold readU16 at h
  split at h
  · exact ⟨by assumption, by injection h with h; exact h.symm⟩
  · exact absurd h (by simp)

lemma readU32_ok_inv (data : List Nat) (off v : Nat) (h : readU32 data off = .ok v) :
    off + 4 ≤ data.length ∧ v = u32At data off := by
  unfold readU32 at h
  split at h
  · exact ⟨by assumption, by injection h with h; exact h.symm⟩
  · exact absurd h (by simp)

lemma parseLocalHeader_eq_ok (data : List Nat) (hsig : listSlice data 0 4 = localSig)
    (hlen : 30 ≤ data.length) :
    parseLocalHeader data = .ok (localHeaderOf data) := by
  unfold parseLocalHeader
  rw [if_neg (by simp [hsig])]
  rw [readU16_eq_ok data 4 (by omega), readU16_eq_ok data 6 (by omega),
    readU16_eq_ok data 8 (by omega), readU16_eq_ok data 10 (by omega),
    readU16_eq_ok data 12 (by omega), readU32_eq_ok data 14 (by omega),
    readU32_eq_ok data 18 (by omega), readU32_eq_ok data 22 (by omega),
    readU16_eq_ok data 26 (by omega), readU16_eq_ok data 28 (by omega)]
  rfl

lemma parseLocalHeader_ok_inv (data : List Nat) (h : ZipLocalHeader)
    (hp : parseLocalHeader data = .ok h) :
    listSlice data 0 4 = localSig ∧ 30 ≤ data.length ∧ h = localHeaderOf data := by
  unfold parseLocalHeader at hp
  split at hp
  · exact absurd hp (by simp)
  · rename_i hsig
    rw [not_not] at hsig
    split at hp
    · exact absurd hp (by simp)
    rename_i v4 h4
    obtain ⟨hb4, hv4⟩ := readU16_ok_inv data 4 v4 h4
    subst hv4
    split at hp
    · exact absurd hp (by simp)
    rename_i v6 h6
    obtain ⟨hb6, hv6⟩ := readU16_ok_inv data 6 v6 h6
    subst hv6
    split at hp
    · exact absurd hp (by simp)
    rename_i v8 h8
    obtain ⟨hb8, hv8⟩ := readU16_ok_inv data 8 v8 h8
    subst hv8
    split at hp
    · exact absurd hp (by simp)
    rename_i v10 h10
    obtain ⟨hb10, hv10⟩ := readU16_ok_inv data 10 v10 h10
    subst hv10
    split at hp
    · exact absurd hp (by simp)
    rename_i v12 h12
    obtain ⟨hb12, hv12⟩ := readU16_ok_inv data 12 v12 h12
    subst hv12
    split at hp
    · exact absurd hp (by simp)
    rename_i v14 h14
    obtain ⟨hb14, hv14⟩ := readU32_ok_inv data 14 v14 h14
    subst hv14
    split at hp
    · exact absurd hp (by simp)
    rename_i v18 h18
    obtain ⟨hb18, hv18⟩ := readU32_ok_inv data 18 v18 h18
    subst hv18
    split at hp
    · exact absurd hp (by simp)
    rename_i v22 h22
    obtain ⟨hb22, hv22⟩ := readU32_ok_inv data 22 v22 h22
    subst hv22
    split at hp
    · exact absurd hp (by simp)
    rename_i v26 h26
    obtain ⟨hb26, hv26⟩ := readU16_ok_inv data 26 v26 h26
    subst hv26
    split at hp
    · exact absurd hp (by simp)
    rename_i v28 h28
    obtain ⟨hb28, hv28⟩ := readU16_ok_inv data 28 v28 h28
    subst hv28
    injection hp with hp
    exact ⟨hsig, by omega, hp.symm⟩

/-- The fields `CentralDirectoryHeader.__init__` stores on `self`. -/
structure CentralDirectoryHeader where
  signature : List Nat
  version_made_by : Nat
  version_needed_to_extract : Nat
  flag : Nat
  compression_method : Nat
  last_modify_time : Nat
  last_modify_date : Nat
  crc32 : Nat
  compressed_size : Nat
  uncompressed_size : Nat
  filename_length : Nat
  extra_field_length : Nat
  comment_length : Nat
  disk_number_start : Nat
  internal_file_attributes : Nat
  external_file_attributes : Nat
  local_header_offset : Nat
  filename : Option (List Nat)
  extra_field : Option (List Nat)
  comment : Option (List Nat)
  length : Nat
deriving DecidableEq, Repr

/-- `CentralDirectoryHeader.__init__(data)`: signature assertion, the fixed
46-byte part via `struct.unpack`, then three length-prefixed variable fields
via plain slices. -/
def parseCentralDirectoryHeader (data : List Nat) :
    Except ZipErr CentralDirectoryHeader :=
  if listSlice data 0 4 ≠ cdSig then
    .error (.signatureInvalid "CentralDirectoryHeader") else
  match readU16 data 4 with
  | .error e => .error e
  | .ok version_made_by =>
  match readU16 data 6 with
  | .error e => .error e
  | .ok version_needed_to_extract =>
  match readU16 data 8 with
  | .error e => .error e
  | .ok flag =>
  match readU16 data 10 with
  | .error e => .error e
  | .ok compression_method =>
  match readU16 data 12 with
  | .error e => .error e
  | .ok last_modify_time =>
  match readU16 data 14 with
  | .error e => .error e
  | .ok last_modify_date =>
  match readU32 data 16 with
  | .error e => .error e
  | .ok crc32 =>
  match readU32 data 20 with
  | .error e => .error e
  | .ok compressed_size =>
  match readU32 data 24 with
  | .error e => .error e
  | .ok uncompressed_size =>
  match readU16 data 28 with
  | .error e => .error e
  | .ok filename_length =>
  match readU16 data 30 with
  | .error e => .error e
  | .ok extra_field_length =>
  match readU16 data 32 with
  | .error e => .error e
  | .ok comment_length =>
  match readU16 data 34 with
  | .error e => .error e
  | .ok disk_number_start =>
  match readU16 data 36 with
  | .error e => .error e
  | .ok internal_file_attributes =>
  match readU32 data 38 with
  | .error e => .error e
  | .ok external_file_attributes =>
  match readU32 data 42 with
  | .error e => .error e
  | .ok local_header_offset =>
    .ok
      { signature := listSlice data 0 4
        version_made_by := version_made_by
        version_needed_to_extract := version_needed_to_extract
        flag := flag
        compression_method := compression_method
        last_modify_time := last_modify_time
        last_modify_date := last_modify_date
        crc32 := crc32
        compressed_size := compressed_size
        uncompressed_size := uncompressed_size
        filename_length := filename_length
        extra_field_length := extra_field_length
        comment_length := comment_length
        disk_number_start := disk_number_start
        internal_file_attributes := internal_file_attributes
        external_file_attributes := external_file_attributes
        local_header_offset := local_header_offset
        filename :=
          if 0 < filename_length then
            some (listSlice data 46 (46 + filename_length))
          else none
        extra_field :=
          if 0 < extra_field_length then
            some (listSlice data (46 + filename_length)
              (46 + filename_length + extra_field_length))
          else none
        comment :=
          if 0 < comment_length then
            some (listSlice data (46 + filename_length + extra_field_length)
              (46 + filename_length + extra_field_length + comment_length))
          else none
        length := 46 + filename_length + extra_field_length + comment_length }

/-- The record `parseCentralDirectoryHeader` produces on a buffer whose
signature matches and whose fixed part is complete (46 bytes available). -/
def cdHeaderOf (data : List Nat) : CentralDirectoryHeader :=
  { signature := listSlice data 0 4
    version_made_by := u16At data 4
    version_needed_to_extract := u16At data 6
    flag := u16At data 8
    compression_method := u16At data 10
    last_modify_time := u16At data 12
    last_modify_date := u16At data 14
    crc32 := u32At data 16
    compressed_size := u32At data 20
    uncompressed_size := u32At data 24
    filename_length := u16At data 28
    extra_field_length := u16At data 30
    comment_length := u16At data 32
    disk_number_start := u16At data 34
    internal_file_attributes := u16At data 36
    external_file_attributes := u32At data 38
    local_header_offset := u32At data 42
    filename :=
      if 0 < u16At data 28 then
        some (listSlice data 46 (46 + u16At data 28))
      else none
    extra_field :=
      if 0 < u16At data 30 then
        some (listSlice data (46 + u16At data 28)
          (46 + u16At data 28 + u16At data 30))
      else none
    comment :=
      if 0 < u16At data 32 then
        some (listSlice data (46 + u16At data 28 + u16At data 30)
          (46 + u16At data 28 + u16At data 30 + u16At data 32))
      else none
    length := 46 + u16At data 28 + u16At data 30 + u16At data 32 }

lemma parseCentralDirectoryHeader_eq_ok (data : List Nat)
    (hsig : listSlice data 0 4 = cdSig) (hlen : 46 ≤ data.length) :
    parseCentralDirectoryHeader data = .ok (cdHeaderOf data) := by
  unfold parseCentralDirectoryHeader
  rw [if_neg (by simp [hsig])]
  rw [readU16_eq_ok data 4 (by omega), readU16_eq_ok data 6 (by omega),
    readU16_eq_ok data 8 (by omega), readU16_eq_ok data 10 (by omega),
    readU16_eq_ok data 12 (by omega), readU16_eq_ok data 14 (by omega),
    readU32_eq_ok data 16 (by omega), readU32_eq_ok data 20 (by omega),
    readU32_eq_ok data 24 (by omega), readU16_eq_ok data 28 (by omega),
    readU16_eq_ok data 30 (by omega), readU16_eq_ok data 32 (by omega),
    readU16_eq_ok data 34 (by omega), readU16_eq_ok data 36 (by omega),
    readU32_eq_ok data 38 (by omega), readU32_eq_ok data 42 (by omega)]
  rfl

lemma parseCentralDirectoryHeader_ok_inv (data : List Nat)
    (cd : CentralDirectoryHeader) (hp : parseCentralDirectoryHeader data = .ok cd) :
    listSlice data 0 4 = cdSig ∧ 46 ≤ data.length ∧ cd = cdHeaderOf data := by
  unfold parseCentralDirectoryHeader at hp
  split at hp
  · exact absurd hp (by simp)
  · rename_i hsig
    rw [not_not] at hsig
    split at hp
    · exact absurd hp (by simp)
    rename_i v4 h4
    obtain ⟨hb4, hv4⟩ := readU16_ok_inv data 4 v4 h4
    subst hv4
    split at hp
    · exact absurd hp (by simp)
    rename_i v6 h6
    obtain ⟨hb6, hv6⟩ := readU16_ok_inv data 6 v6 h6
    subst hv6
    split at hp
    · exact absurd hp (by simp)
    rename_i v8 h8
    obtain ⟨hb8, hv8⟩ := readU16_ok_inv data 8 v8 h8
    subst hv8
    split at hp
    · exact absurd hp (by simp)
    rename_i v10 h10
    obtain ⟨hb10, hv10⟩ := readU16_ok_inv data 10 v10 h10
    subst hv10
    split at hp
    · exact absurd hp (by simp)
    rename_i v12 h12
    obtain ⟨hb12, hv12⟩ := readU16_ok_inv data 12 v12 h12
    subst hv12
    split at hp
    · exact absurd hp (by simp)
    rename_i v14 h14
    obtain ⟨hb14, hv14⟩ := readU16_ok_inv data 14 v14 h14
    subst hv14
    split at hp
    · exact absurd hp (by simp)
    rename_i v16 h16
    obtain ⟨hb16, hv16⟩ := readU32_ok_inv data 16 v16 h16
    subst hv16
    split at hp
    · exact absurd hp (by simp)
    rename_i v20 h20
    obtain ⟨hb20, hv20⟩ := readU32_ok_inv data 20 v20 h20
    subst hv20
    split at hp
    · exact absurd hp (by simp)
    rename_i v24 h24
    obtain ⟨hb24, hv24⟩ := readU32_ok_inv data 24 v24 h24
    subst hv24
    split at hp
    · exact absurd hp (by simp)
    rename_i v28 h28
    obtain ⟨hb28, hv28⟩ := readU16_ok_inv data 28 v28 h28
    subst hv28
    split at hp
    · exact absurd hp (by simp)
    rename_i v30 h30
    obtain ⟨hb30, hv30⟩ := readU16_ok_inv data 30 v30 h30
    subst hv30
    split at hp
    · exact absurd hp (by simp)
    rename_i v32 h32
    obtain ⟨hb32, hv32⟩ := readU16_ok_inv data 32 v32 h32
    subst hv32
    split at hp
    · exact absurd hp (by simp)
    rename_i v34 h34
    obtain ⟨hb34, hv34⟩ := readU16_ok_inv data 34 v34 h34
    subst hv34
    split at hp
    · exact absurd hp (by simp)
    rename_i v36 h36
    obtain ⟨hb36, hv36⟩ := readU16_ok_inv data 36 v36 h36
    subst hv36
    split at hp
    · exact absurd hp (by simp)
    rename_i v38 h38
    obtain ⟨hb38, hv38⟩ := readU32_ok_inv data 38 v38 h38
    subst hv38
    split at hp
    · exact absurd hp (by simp)
    rename_i v42 h42
    obtain ⟨hb42, hv42⟩ := readU32_ok_inv data 42 v42 h42
    subst hv42
    injection hp with hp
    exact ⟨hsig, by omega, hp.symm⟩

/-- The fields `CentralDirectoryEnd.__init__` stores on `self`. -/
structure CentralDirectoryEnd where
  signature : List Nat
  number_this_disk : Nat
  central_directory_start_disk : Nat
  number_central_directory_entries : Nat
  number_file_entries : Nat
  central_directory_size : Nat
  central_directory_offset : Nat
  zip_comment_length : Nat
  zip_comment : Option (List Nat)
  length : Nat
deriving DecidableEq, Repr

/-- `CentralDirectoryEnd.__init__(data)`: signature assertion, the fixed
22-byte part via `struct.unpack`, then the comment.  The comment branch of the
source reads the bare name `zip_comment_length` (the attribute is
`self.zip_comment_length`), a name that is never assigned, so a non-zero
comment length raises `NameError` there. -/
def parseCentralDirectoryEnd (data : List Nat) : Except ZipErr CentralDirectoryEnd :=
  if listSlice data 0 4 ≠ eocdSig then
    .error (.signatureInvalid "CentralDirectoryEnd") else
  match readU16 data 4 with
  | .error e => .error e
  | .ok number_this_disk =>
  match readU16 data 6 with
  | .error e => .error e
  | .ok central_directory_start_disk =>
  match readU16 data 8 with
  | .error e => .error e
  | .ok number_central_directory_entries =>
  match readU16 data 10 with
  | .error e => .error e
  | .ok number_file_entries =>
  match readU32 data 12 with
  | .error e => .error e
  | .ok central_directory_size =>
  match readU32 data 16 with
  | .error e => .error e
  | .ok central_directory_offset =>
  match readU16 data 20 with
  | .error e => .error e
  | .ok zip_comment_length =>
  if 0 < zip_comment_length then .error (.nameError "zip_comment_length") else
    .ok
      { signature := listSlice data 0 4
        number_this_disk := number_this_disk
        central_directory_start_disk := central_directory_start_disk
        number_central_directory_entries := number_central_directory_entries
        number_file_entries := number_file_entries
        central_directory_size := central_directory_size
        central_directory_offset := central_directory_offset
        zip_comment_length := zip_comment_length
        zip_comment := none
        length := 22 + zip_comment_length }

/-- The three values the walker stores for a `'\x50\x4b\x07\x08'` trailer
(dict keys `crc32`, `compressedsize`, `uncompressedsize`). -/
structure DataDescriptor where
  crc32 : Nat
  compressedsize : Nat
  uncompressedsize : Nat
deriving DecidableEq, Repr

/-- One element of `Zip.zipped_files`: the parsed local header, the raw
payload slice, and the optional data descriptor. -/
structure ZippedFile where
  localheader : ZipLocalHeader
  filedata : List Nat
  descriptor : Option DataDescriptor
deriving DecidableEq, Repr

/-- The state `Zip.__init__` leaves on `self` when it runs to completion. -/
structure ZipModel where
  zipped_files : List ZippedFile
  central_directory_headers : List CentralDirectoryHeader
  central_directory_end : Option CentralDirectoryEnd
deriving DecidableEq, Repr

/-- Outcome of one analysis: either the completed model, or the raised
exception together with the partially assembled lists that `Zip.__init__`
had appended to `self` before raising. -/
inductive WalkResult where
  | ok (model : ZipModel)
  | err (e : ZipErr) (zipped_files : List ZippedFile)
      (central_directory_headers : List CentralDirectoryHeader)
deriving DecidableEq, Repr

/-- The signature-peek block of the phase-1 loop: peek 4 bytes at `pointer`;
on `'\x50\x4b\x07\x08'` unpack crc32 / compressed size / uncompressed size,
advance 16 bytes and re-peek; otherwise consume nothing.  Returns the
descriptor (if any), the new pointer, and the signature now in hand. -/
def descriptorStep (data : List Nat) (pointer : Nat) :
    Except ZipErr (Option DataDescriptor × Nat × List Nat) :=
  if listSlice data pointer (pointer + 4) = descSig then
    match readU32 data (pointer + 4) with
    | .error e => .error e
    | .ok crc32 =>
    match readU32 data (pointer + 8) with
    | .error e => .error e
    | .ok compressedsize =>
    match readU32 data (pointer + 12) with
    | .error e => .error e
    | .ok uncompressedsize =>
      .ok (some ⟨crc32, compressedsize, uncompressedsize⟩, pointer + 16,
        listSlice data (pointer + 16) (pointer + 20))
  else
    .ok (none, pointer, listSlice data pointer (pointer + 4))

/-- One iteration of the phase-1 loop body of `Zip.__init__`: parse a local
header at `pointer`, advance past it, slice off `compressed_size` payload
bytes, advance past them, then run the descriptor peek.  Returns the
completed entry, the new pointer, and the peeked signature. -/
def phase1Step (data : List Nat) (pointer : Nat) :
    Except ZipErr (ZippedFile × Nat × List Nat) :=
  match parseLocalHeader (data.drop pointer) with
  | .error e => .error e
  | .ok header =>
    match descriptorStep data (pointer + header.length + header.compressed_size) with
    | .error e => .error e
    | .ok (descriptor, p2, signature) =>
      .ok
        (⟨header,
          listSlice data (pointer + header.length)
            (pointer + header.length + header.compressed_size),
          descriptor⟩,
         p2, signature)

/-- Accumulated result of the phase-1 loop: the exception raised (entries
appended so far kept), or normal exit with the entry list, the cursor, and
the signature that ended the loop. -/
inductive Phase1Out where
  | fail (e : ZipErr) (files : List ZippedFile)
  | done (files : List ZippedFile) (pointer : Nat) (signature : List Nat)
deriving DecidableEq, Repr

/-- The phase-1 `while True` loop of `Zip.__init__`: run one step, append the
entry, continue while the signature in hand is `'\x50\x4b\x03\x04'`.  `fuel`
is a modelling artifact; `phase1_isSome` shows `data.length + 1` suffices. -/
def phase1 : Nat → List Nat → Nat → List ZippedFile → Option Phase1Out
  | 0, _, _, _ => none
  | fuel + 1, data, pointer, acc =>
    match phase1Step data pointer with
    | .error e => some (.fail e acc)
    | .ok (entry, p2, signature) =>
      if signature = localSig then phase1 fuel data p2 (acc ++ [entry])
      else some (.done (acc ++ [entry]) p2 signature)

/-- Accumulated result of the phase-2 loop, as for phase 1. -/
inductive Phase2Out where
  | fail (e : ZipErr) (cds : List CentralDirectoryHeader)
  | done (cds : List CentralDirectoryHeader) (pointer : Nat) (signature : List Nat)
deriving DecidableEq, Repr

/-- The phase-2 `while True` loop of `Zip.__init__`: while the signature in
hand is `'\x50\x4b\x01\x02'`, parse a central directory header, append it,
advance by its length and re-peek. -/
def phase2 : Nat → List Nat → Nat → List Nat → List CentralDirectoryHeader →
    Option Phase2Out
  | 0, _, _, _, _ => none
  | fuel + 1, data, pointer, signature, acc =>
    if signature ≠ cdSig then some (.done acc pointer signature)
    else
      match parseCentralDirectoryHeader (data.drop pointer) with
      | .error e => some (.fail e acc)
      | .ok cd =>
        phase2 fuel data (pointer + cd.length)
          (listSlice data (pointer + cd.length) (pointer + cd.length + 4))
          (acc ++ [cd])

/-- The final lines of `Zip.__init__`: `if pointer == len(self.data)` is
fine; the `elif pointer < len(data)` branch reads the never-assigned local
`data` and raises `NameError` whenever the buffer was not exactly
consumed. -/
def finalize (data : List Nat) (files : List ZippedFile)
    (cds : List CentralDirectoryHeader) (eocd : Option CentralDirectoryEnd)
    (pointer : Nat) : WalkResult :=
  if pointer = data.length then .ok ⟨files, cds, eocd⟩
  else .err (.nameError "data") files cds

/-- `Zip.__init__` on an in-memory buffer (file loading and logging are
peripheral): phase 1 over local entries, phase 2 over central directory
headers, the optional end record, then the final length comparison.
`none` would mean fuel exhaustion; `walkZip_isSome` rules it out. -/
def walkZip (data : List Nat) : Option WalkResult :=
  match phase1 (data.length + 1) data 0 [] with
  | none => none
  | some (.fail e files) => some (.err e files [])
  | some (.done files p sig) =>
    match phase2 (data.length + 1) data p sig [] with
    | none => none
    | some (.fail e cds) => some (.err e files cds)
    | some (.done cds p2 sig2) =>
      if sig2 = eocdSig then
        match parseCentralDirectoryEnd (data.drop p2) with
        | .error e => some (.err e files cds)
        | .ok eocd =>
          some (finalize data files cds (some eocd) (p2 + eocd.length))
      else some (finalize data files cds none p2)

/-- Local file header bytes: version 20, flag 0, method 8 (Deflated),
compressed size 10, uncompressed size 20, filename `a.txt`, no extra
field (35 bytes). -/
def localHdrA : List Nat :=
  [0x50, 0x4B, 0x03, 0x04, 20, 0, 0, 0, 8, 0, 0, 0, 0, 0, 0, 0, 0, 0,
   10, 0, 0, 0, 20, 0, 0, 0, 5, 0, 0, 0, 97, 46, 116, 120, 116]

/-- Ten payload bytes for the entry above. -/
def payloadA : List Nat := [1, 2, 3, 4, 5, 6, 7, 8, 9, 10]

/-- Central directory header bytes echoing `localHdrA`, with
`local_header_offset = 0` (51 bytes). -/
def cdBytesA : List Nat :=
  [0x50, 0x4B, 0x01, 0x02, 20, 0, 20, 0, 0, 0, 8, 0, 0, 0, 0, 0, 0, 0, 0, 0,
   10, 0, 0, 0, 20, 0, 0, 0, 5, 0, 0, 0, 0, 0, 0, 0, 0, 0, 0, 0, 0, 0,
   0, 0, 0, 0, 97, 46, 116, 120, 116]

/-- End-of-central-directory bytes: one entry, directory size 51 at offset 45,
no comment (22 bytes). -/
def eocdBytesA : List Nat :=
  [0x50, 0x4B, 0x05, 0x06, 0, 0, 0, 0, 1, 0, 1, 0, 51, 0, 0, 0, 45, 0, 0, 0, 0, 0]

/-- A complete single-entry archive: local header, payload, central
directory, end record; 118 bytes, exactly consumed. -/
def scenarioA : List Nat := localHdrA ++ payloadA ++ cdBytesA ++ eocdBytesA

/-- `scenarioA` with eight arbitrary bytes appended (trailing overlay). -/
def scenarioD : List Nat := scenarioA ++ [222, 173, 190, 239, 1, 2, 3, 4]

/-- The local header parsed from `localHdrA`. -/
def hdrA : ZipLocalHeader :=
  { signature := [0x50, 0x4B, 0x03, 0x04]
    version := 20
    flag := 0
    compression_method := 8
    last_modify_time := 0
    last_modify_date := 0
    crc32 := 0
    compressed_size := 10
    uncompressed_size := 20
    filename_length := 5
    extra_field_length := 0
    filename := some [97, 46, 116, 120, 116]
    extra_field := none
    encrypted := false
    length := 35 }

/-- The entry the walker assembles from `localHdrA` and `payloadA`. -/
def entryA : ZippedFile := ⟨hdrA, payloadA, none⟩

/-- The central directory header parsed from `cdBytesA`. -/
def cdRecA : CentralDirectoryHeader :=
  { signature := [0x50, 0x4B, 0x01, 0x02]
    version_made_by := 20
    version_needed_to_extract := 20
    flag := 0
    compression_method := 8
    last_modify_time := 0
    last_modify_date := 0
    crc32 := 0
    compressed_size := 10
    uncompressed_size := 20
    filename_length := 5
    extra_field_length := 0
    comment_length := 0
    disk_number_start := 0
    internal_file_attributes := 0
    external_file_attributes := 0
    local_header_offset := 0
    filename := some [97, 46, 116, 120, 116]
    extra_field := none
    comment := none
    length := 51 }

/-- The end record parsed from `eocdBytesA`. -/
def eocdRecA : CentralDirectoryEnd :=
  { signature := [0x50, 0x4B, 0x05, 0x06]
    number_this_disk := 0
    central_directory_start_disk := 0
    number_central_directory_entries := 1
    number_file_entries := 1
    central_directory_size := 51
    central_directory_offset := 45
    zip_comment_length := 0
    zip_comment := none
    length := 22 }

/-- The archive model the walk builds from `scenarioA`. -/
def modelA : ZipModel := ⟨[entryA], [cdRecA], some eocdRecA⟩

/-- `localHdrA` with flag bit 3 set (flag = 8, streamed entry). -/
def localHdrC : List Nat :=
  [0x50, 0x4B, 0x03, 0x04, 20, 0, 8, 0, 8, 0, 0, 0, 0, 0, 0, 0, 0, 0,
   10, 0, 0, 0, 20, 0, 0, 0, 5, 0, 0, 0, 97, 46, 116, 120, 116]

/-- A data descriptor block: magic, crc32 `0x12345678`, sizes 10 and 20. -/
def descBytesC : List Nat :=
  [0x50, 0x4B, 0x07, 0x08, 0x78, 0x56, 0x34, 0x12, 10, 0, 0, 0, 20, 0, 0, 0]

/-- Central directory header matching `localHdrC` (flag = 8). -/
def cdBytesC : List Nat :=
  [0x50, 0x4B, 0x01, 0x02, 20, 0, 20, 0, 8, 0, 8, 0, 0, 0, 0, 0, 0, 0, 0, 0,
   10, 0, 0, 0, 20, 0, 0, 0, 5, 0, 0, 0, 0, 0, 0, 0, 0, 0, 0, 0, 0, 0,
   0, 0, 0, 0, 97, 46, 116, 120, 116]

/-- End record for `scenarioC`: directory size 51 at offset 61, no comment. -/
def eocdBytesC : List Nat :=
  [0x50, 0x4B, 0x05, 0x06, 0, 0, 0, 0, 1, 0, 1, 0, 51, 0, 0, 0, 61, 0, 0, 0, 0, 0]

/-- A single-entry archive whose payload is followed by a
`'\x50\x4b\x07\x08'` data descriptor and then the central directory
(134 bytes, exactly consumed). -/
def scenarioC : List Nat :=
  localHdrC ++ payloadA ++ descBytesC ++ cdBytesC ++ eocdBytesC

/-- A buffer that is a well-formed empty ZIP archive: it starts directly with
the end-of-central-directory record (zero entries, empty directory). -/
def emptyZipBuf : List Nat :=
  [0x50, 0x4B, 0x05, 0x06, 0, 0, 0, 0, 0, 0, 0, 0, 0, 0, 0, 0, 0, 0, 0, 0, 0, 0]

/-- A local header whose fixed part declares a 5-byte filename but whose
buffer holds only 2 further bytes (`ab`): truncated mid-filename. -/
def truncatedNameBuf : List Nat :=
  [0x50, 0x4B, 0x03, 0x04, 20, 0, 0, 0, 8, 0, 0, 0, 0, 0, 0, 0, 0, 0,
   10, 0, 0, 0, 20, 0, 0, 0, 5, 0, 0, 0, 97, 98]

/-- An end-of-central-directory record with a declared one-byte comment
(`A`) following the fixed 22 bytes. -/
def eocdCommentBuf : List Nat :=
  [0x50, 0x4B, 0x05, 0x06, 0, 0, 0, 0, 0, 0, 0, 0, 0, 0, 0, 0, 0, 0, 0, 0, 1, 0, 65]

/-- A 30-byte local header whose filename-length and extra-field-length
fields are both zero. -/
def emptyNameHdrBuf : List Nat :=
  [0x50, 0x4B, 0x03, 0x04] ++ List.replicate 26 0

/-- Set bit 0 of the flag field of a local header byte buffer: the flag's low
byte sits at offset 6, and `2 * (b / 2) + 1` is that byte with its least
significant bit forced to 1. -/
def setFlagBit0 (data : List Nat) : List Nat :=
  data.set 6 (2 * (byteAt data 6 / 2) + 1)

/-- The local header parsed from `localHdrC` (flag 8, not encrypted). -/
def hdrC : ZipLocalHeader := { hdrA with flag := 8 }

/-- The entry the walker assembles from `scenarioC`, descriptor included. -/
def entryC : ZippedFile := ⟨hdrC, payloadA, some ⟨0x12345678, 10, 20⟩⟩

/-- The central directory header parsed from `cdBytesC`. -/
def cdRecC : CentralDirectoryHeader := { cdRecA with flag := 8 }

/-- The end record parsed from `eocdBytesC`. -/
def eocdRecC : CentralDirectoryEnd :=
  { eocdRecA with central_directory_offset := 61 }

/-- The archive model the walk builds from `scenarioC`. -/
def modelC : ZipModel := ⟨[entryC], [cdRecC], some eocdRecC⟩

/-- The header parsed from `truncatedNameBuf`: identical to `hdrA` except
that the filename holds only the two bytes that were available. -/
def truncHdr : ZipLocalHeader := { hdrA with filename := some [97, 98] }

lemma descriptorStep_found (data : List Nat) (p : Nat)
    (hsig : listSlice data p (p + 4) = descSig) (hlen : p + 16 ≤ data.length) :
    descriptorStep data p =
      .ok (some ⟨u32At data (p + 4), u32At data (p + 8), u32At data (p + 12)⟩,
        p + 16, listSlice data (p + 16) (p + 20)) := by
  unfold descriptorStep
  rw [if_pos hsig, readU32_eq_ok data (p + 4) (by omega),
    readU32_eq_ok data (p + 8) (by omega), readU32_eq_ok data (p + 12) (by omega)]

lemma descriptorStep_absent (data : List Nat) (p : Nat)
    (hsig : listSlice data p (p + 4) ≠ descSig) :
    descriptorStep data p = .ok (none, p, listSlice data p (p + 4)) := by
  unfold descriptorStep
  rw [if_neg hsig]

lemma descriptorStep_le (data : List Nat) (p : Nat) (d : Option DataDescriptor)
    (p2 : Nat) (s : List Nat) (h : descriptorStep data p = .ok (d, p2, s)) :
    p ≤ p2 := by
  unfold descriptorStep at h
  split at h
  · split at h
    · exact absurd h (by simp)
    split at h
    · exact absurd h (by simp)
    split at h
    · exact absurd h (by simp)
    simp only [Except.ok.injEq, Prod.mk.injEq] at h
    omega
  · simp only [Except.ok.injEq, Prod.mk.injEq] at h
    omega

lemma phase1Step_inv (data : List Nat) (pointer : Nat) (entry : ZippedFile)
    (p2 : Nat) (sig : List Nat)
    (h : phase1Step data pointer = .ok (entry, p2, sig)) :
    parseLocalHeader (data.drop pointer) = .ok entry.localheader ∧
    entry.filedata =
      listSlice data (pointer + entry.localheader.length)
        (pointer + entry.localheader.length + entry.localheader.compressed_size) ∧
    descriptorStep data
      (pointer + entry.localheader.length + entry.localheader.compressed_size) =
      .ok (entry.descriptor, p2, sig) := by
  unfold phase1Step at h
  split at h
  · exact absurd h (by simp)
  rename_i header hparse
  split at h
  · exact absurd h (by simp)
  rename_i t descriptor q2 signature hdesc
  simp only [Except.ok.injEq, Prod.mk.injEq] at h
  obtain ⟨he, hp2, hsig⟩ := h
  subst he
  subst hp2
  subst hsig
  exact ⟨hparse, rfl, hdesc⟩

lemma phase1Step_bounds (data : List Nat) (pointer : Nat) (entry : ZippedFile)
    (p2 : Nat) (sig : List Nat)
    (h : phase1Step data pointer = .ok (entry, p2, sig)) :
    pointer + 30 ≤ data.length ∧ pointer + 30 ≤ p2 := by
  obtain ⟨hparse, _, hdesc⟩ := phase1Step_inv data pointer entry p2 sig h
  obtain ⟨_, hlen, hhdr⟩ :=
    parseLocalHeader_ok_inv (data.drop pointer) entry.localheader hparse
  rw [List.length_drop] at hlen
  have hlen30 : 30 ≤ entry.localheader.length := by
    rw [hhdr]
    simp only [localHeaderOf]
    omega
  have hle := descriptorStep_le data
    (pointer + entry.localheader.length + entry.localheader.compressed_size)
    entry.descriptor p2 sig hdesc
  omega

lemma phase1_isSome (data : List Nat) :
    ∀ fuel pointer acc, data.length - pointer < fuel →
      phase1 fuel data pointer acc ≠ none := by
  intro fuel
  induction fuel with
  | zero =>
    intro pointer acc h
    exact absurd h (Nat.not_lt_zero _)
  | succ n ih =>
    intro pointer acc h
    simp only [phase1]
    cases hs : phase1Step data pointer with
    | error e => simp
    | ok t =>
      obtain ⟨entry, p2, sig⟩ := t
      obtain ⟨hb1, hb2⟩ := phase1Step_bounds data pointer entry p2 sig hs
      dsimp only
      split
      · exact ih p2 (acc ++ [entry]) (by omega)
      · simp

lemma parseCentralDirectoryHeader_bounds (data : List Nat) (pointer : Nat)
    (cd : CentralDirectoryHeader)
    (hp : parseCentralDirectoryHeader (data.drop pointer) = .ok cd) :
    pointer + 46 ≤ data.length ∧ 46 ≤ cd.length := by
  obtain ⟨_, hlen, hcd⟩ :=
    parseCentralDirectoryHeader_ok_inv (data.drop pointer) cd hp
  rw [List.length_drop] at hlen
  constructor
  · omega
  · rw [hcd]
    simp only [cdHeaderOf]
    omega

lemma phase2_isSome (data : List Nat) :
    ∀ fuel pointer sig acc, data.length - pointer < fuel →
      phase2 fuel data pointer sig acc ≠ none := by
  intro fuel
  induction fuel with
  | zero =>
    intro pointer sig acc h
    exact absurd h (Nat.not_lt_zero _)
  | succ n ih =>
    intro pointer sig acc h
    simp only [phase2]
    split
    · simp
    · cases hs : parseCentralDirectoryHeader (data.drop pointer) with
      | error e => simp
      | ok cd =>
        obtain ⟨hb1, hb2⟩ := parseCentralDirectoryHeader_bounds data pointer cd hs
        exact ih (pointer + cd.length) _ (acc ++ [cd]) (by omega)

lemma walkZip_isSome (data : List Nat) : walkZip data ≠ none := by
  unfold walkZip
  cases h1 : phase1 (data.length + 1) data 0 [] with
  | none => exact absurd h1 (phase1_isSome data (data.length + 1) 0 [] (by omega))
  | some out1 =>
    cases out1 with
    | fail e files => simp
    | done files p sig =>
      dsimp only
      cases h2 : phase2 (data.length + 1) data p sig [] with
      | none => exact absurd h2 (phase2_isSome data (data.length + 1) p sig [] (by omega))
      | some out2 =>
        cases out2 with
        | fail e cds => simp
        | done cds p2 sig2 =>
          dsimp only
          split
          · cases parseCentralDirectoryEnd (data.drop p2) <;> simp
          · simp

lemma phase1_done_grow (data : List Nat) :
    ∀ fuel pointer acc files p sig,
      phase1 fuel data pointer acc = some (.done files p sig) →
      acc.length < files.length := by
  intro fuel
  induction fuel with
  | zero =>
    intro pointer acc files p sig h
    exact absurd h (by simp [phase1])
  | succ n ih =>
    intro pointer acc files p sig h
    simp only [phase1] at h
    cases hs : phase1Step data pointer with
    | error e =>
      rw [hs] at h
      simp at h
    | ok t =>
      obtain ⟨entry, p2, sg⟩ := t
      rw [hs] at h
      dsimp only at h
      split at h
      · have := ih p2 (acc ++ [entry]) files p sig h
        simp only [List.length_append, List.length_singleton] at this
        omega
      · simp only [Option.some.injEq, Phase1Out.done.injEq] at h
        obtain ⟨hf, _, _⟩ := h
        subst hf
        simp

lemma walkZip_ok_inv (data : List Nat) (m : ZipModel)
    (hw : walkZip data = some (.ok m)) :
    ∃ p sig, phase1 (data.length + 1) data 0 [] = some (.done m.zipped_files p sig) := by
  unfold walkZip at hw
  split at hw
  · exact absurd hw (by simp)
  · exact absurd hw (by simp)
  · rename_i files p sig h1
    split at hw
    · exact absurd hw (by simp)
    · exact absurd hw (by simp)
    · rename_i cds p2 sig2 h2
      split at hw
      · split at hw
        · exact absurd hw (by simp)
        · rename_i eocd hE
          unfold finalize at hw
          split at hw
          · simp only [Option.some.injEq, WalkResult.ok.injEq] at hw
            subst hw
            exact ⟨p, sig, h1⟩
          · exact absurd hw (by simp)
      · unfold finalize at hw
        split at hw
        · simp only [Option.some.injEq, WalkResult.ok.injEq] at hw
          subst hw
          exact ⟨p, sig, h1⟩
        · exact absurd hw (by simp)

lemma byteAt_set_ne (data : List Nat) (i j v : Nat) (h : i ≠ j) :
    byteAt (data.set i v) j = byteAt data j := by
  unfold byteAt
  rw [List.getD_eq_getElem?_getD, List.getD_eq_getElem?_getD, List.getElem?_set_ne h]

lemma byteAt_set_self (data : List Nat) (i v : Nat) (h : i < data.length) :
    byteAt (data.set i v) i = v := by
  unfold byteAt
  rw [List.getD_eq_getElem?_getD, List.getElem?_set_eq_of_lt v h]
  rfl

lemma u16At_set_ne (data : List Nat) (i off v : Nat) (h1 : i ≠ off)
    (h2 : i ≠ off + 1) : u16At (data.set i v) off = u16At data off := by
  unfold u16At
  rw [byteAt_set_ne data i off v h1, byteAt_set_ne data i (off + 1) v h2]

lemma u32At_set_ne (data : List Nat) (i off v : Nat) (h1 : i ≠ off)
    (h2 : i ≠ off + 1) (h3 : i ≠ off + 2) (h4 : i ≠ off + 3) :
    u32At (data.set i v) off = u32At data off := by
  unfold u32At
  rw [byteAt_set_ne data i off v h1, byteAt_set_ne data i (off + 1) v h2,
    byteAt_set_ne data i (off + 2) v h3, byteAt_set_ne data i (off + 3) v h4]

lemma listSlice_set_outside (data : List Nat) (i v a b : Nat)
    (h : i < a ∨ b ≤ i) : listSlice (data.set i v) a b = listSlice data a b := by
  unfold listSlice
  apply List.ext_getElem?
  intro n
  rw [List.getElem?_take, List.getElem?_take]
  split
  · rename_i hn
    rw [List.getElem?_drop, List.getElem?_drop,
      List.getElem?_set_ne (show i ≠ a + n by omega)]
  · rfl

/-- C1: the claim says that on reaching Done the Walker computes
`overlay_length = len(RawBuffer) - cursor`, so that appending 8 bytes to a
valid archive reports overlay 8.  The code computes no overlay value at all:
its final branch reads the never-assigned local `data`, so the exactly
consumed `scenarioA` succeeds (the only case the claim gets right, overlay 0
by exhaustion of the buffer), while `scenarioD` — the same archive with 8
trailing bytes — raises `NameError` instead of reporting overlay 8. -/
theorem claim_C1_overlay_namerror :
    walkZip scenarioA = some (.ok modelA) ∧
    walkZip scenarioD =
      some (.err (.nameError "data") modelA.zipped_files
        modelA.central_directory_headers) :=
  ⟨rfl, rfl⟩

/-- C3: the end-of-central-directory parser reads the fixed 22-byte layout
and reports `length = 22 + comment_length`, but only the zero-comment case
works: a non-zero declared comment length makes the source read the
never-assigned local `zip_comment_length`, raising `NameError` instead of
consuming the comment. -/
theorem claim_C3_eocd_comment_namerror :
    parseCentralDirectoryEnd eocdBytesA = .ok eocdRecA ∧
    eocdRecA.length = 22 ∧
    parseCentralDirectoryEnd eocdCommentBuf =
      .error (.nameError "zip_comment_length") :=
  ⟨rfl, rfl, rfl⟩

/-- C6: any buffer whose first four bytes are not `PK\x03\x04` (the empty
buffer included) makes the walk abort at once with the local-header
signature error and empty partial lists, and each of the three record
parsers rejects a wrong signature before touching any other field. -/
theorem claim_C6_signature_first :
    (∀ data, listSlice data 0 4 ≠ localSig →
      walkZip data = some (.err (.signatureInvalid "LocalHeader") [] [])) ∧
    (∀ data, listSlice data 0 4 ≠ localSig →
      parseLocalHeader data = .error (.signatureInvalid "LocalHeader")) ∧
    (∀ data, listSlice data 0 4 ≠ cdSig →
      parseCentralDirectoryHeader data =
        .error (.signatureInvalid "CentralDirectoryHeader")) ∧
    (∀ data, listSlice data 0 4 ≠ eocdSig →
      parseCentralDirectoryEnd data =
        .error (.signatureInvalid "CentralDirectoryEnd")) := by
  have hlocal : ∀ data : List Nat, listSlice data 0 4 ≠ localSig →
      parseLocalHeader data = .error (.signatureInvalid "LocalHeader") := by
    intro data h
    unfold parseLocalHeader
    rw [if_pos h]
  refine ⟨?_, hlocal, ?_, ?_⟩
  · intro data h
    have hstep : phase1Step data 0 = .error (.signatureInvalid "LocalHeader") := by
      unfold phase1Step
      rw [List.drop_zero, hlocal data h]
    unfold walkZip
    have h1 : phase1 (data.length + 1) data 0 [] =
        some (.fail (.signatureInvalid "LocalHeader") []) := by
      simp only [phase1, hstep]
    rw [h1]
  · intro data h
    unfold parseCentralDirectoryHeader
    rw [if_pos h]
  · intro data h
    unfold parseCentralDirectoryEnd
    rw [if_pos h]

/-- Witness for C6 at the empty buffer. -/
theorem claim_C6_signature_first_witness :
    walkZip [] = some (.err (.signatureInvalid "LocalHeader") [] []) ∧
    parseLocalHeader [] = .error (.signatureInvalid "LocalHeader") :=
  ⟨claim_C6_signature_first.1 [] (by decide),
   claim_C6_signature_first.2.1 [] (by decide)⟩

/-- C9: each phase-1 iteration advances the cursor by at least 30 bytes (the
local header's fixed size), each phase-2 iteration advances by the parsed
record's `length`, which is at least its 46-byte fixed size, and the whole
walk always returns within `length + 1` loop iterations per phase. -/
theorem claim_C9_termination :
    (∀ data pointer entry p2 sig,
      phase1Step data pointer = .ok (entry, p2, sig) → pointer + 30 ≤ p2) ∧
    (∀ data cd, parseCentralDirectoryHeader data = .ok cd → 46 ≤ cd.length) ∧
    (∀ data, walkZip data ≠ none) := by
  refine ⟨?_, ?_, walkZip_isSome⟩
  · intro data pointer entry p2 sig h
    exact (phase1Step_bounds data pointer entry p2 sig h).2
  · intro data cd h
    obtain ⟨-, -, hcd⟩ := parseCentralDirectoryHeader_ok_inv data cd h
    rw [hcd]
    simp only [cdHeaderOf]
    omega

/-- Witness for C9 at `scenarioA`: the first iteration moves the cursor from
0 to 45, and the parsed central directory record is 51 ≥ 46 bytes long. -/
theorem claim_C9_termination_witness : 0 + 30 ≤ 45 ∧ 46 ≤ cdRecA.length :=
  ⟨claim_C9_termination.1 scenarioA 0 entryA 45 cdSig rfl,
   claim_C9_termination.2.1 cdBytesA cdRecA rfl⟩

/-- C10: the walker parses a local file header before anything else, so a
well-formed empty archive (a buffer that begins with `PK\x05\x06`) is
rejected with the local-header signature error and an empty model, and every
walk that returns a completed model holds at least one entry. -/
theorem claim_C10_first_record_is_local :
    walkZip emptyZipBuf = some (.err (.signatureInvalid "LocalHeader") [] []) ∧
    (∀ data m, walkZip data = some (.ok m) → m.zipped_files ≠ []) := by
  refine ⟨rfl, ?_⟩
  intro data m hw
  obtain ⟨p, sig, h1⟩ := walkZip_ok_inv data m hw
  have hgrow := phase1_done_grow data (data.length + 1) 0 [] m.zipped_files p sig h1
  intro hnil
  rw [hnil] at hgrow
  simp at hgrow

/-- Witness for C10: the completed model of `scenarioA` has a non-empty
entry list. -/
theorem claim_C10_first_record_is_local_witness : modelA.zipped_files ≠ [] :=
  claim_C10_first_record_is_local.2 scenarioA modelA rfl

/-- C4: at the end of an entry's payload the walker peeks four bytes; on
`PK\x07\x08` it consumes exactly 16 bytes (signature, crc32, compressed and
uncompressed size) as a populated descriptor and re-peeks at the new cursor,
otherwise it consumes nothing and the descriptor is absent.  On `scenarioC`,
whose descriptor is followed by `PK\x01\x02`, the walk yields the populated
descriptor and goes on to parse the central directory. -/
theorem claim_C4_descriptor_peek :
    (∀ data p, listSlice data p (p + 4) = descSig → p + 16 ≤ data.length →
      descriptorStep data p =
        .ok (some ⟨u32At data (p + 4), u32At data (p + 8), u32At data (p + 12)⟩,
          p + 16, listSlice data (p + 16) (p + 20))) ∧
    (∀ data p, listSlice data p (p + 4) ≠ descSig →
      descriptorStep data p = .ok (none, p, listSlice data p (p + 4))) ∧
    walkZip scenarioC = some (.ok modelC) :=
  ⟨descriptorStep_found, descriptorStep_absent, rfl⟩

/-- Witness for C4 at the descriptor of `scenarioC` (cursor 45, right after
the ten payload bytes). -/
theorem claim_C4_descriptor_peek_witness :
    descriptorStep scenarioC 45 =
      .ok (some ⟨u32At scenarioC (45 + 4), u32At scenarioC (45 + 8),
          u32At scenarioC (45 + 12)⟩,
        45 + 16, listSlice scenarioC (45 + 16) (45 + 20)) :=
  claim_C4_descriptor_peek.1 scenarioC 45 (by decide) (by decide)

/-- C5: every successfully parsed local header carries
`length = 30 + filename_length + extra_field_length`, and the walker's
phase-1 step takes the payload slice starting exactly `length` bytes past
the record start and hands the cursor to the descriptor peek exactly
`compressed_size` further bytes on. -/
theorem claim_C5_header_length :
    ∀ data pointer entry p2 sig,
      phase1Step data pointer = .ok (entry, p2, sig) →
      entry.localheader.length =
        30 + entry.localheader.filename_length +
          entry.localheader.extra_field_length ∧
      entry.filedata =
        listSlice data (pointer + entry.localheader.length)
          (pointer + entry.localheader.length +
            entry.localheader.compressed_size) ∧
      descriptorStep data
        (pointer + entry.localheader.length +
          entry.localheader.compressed_size) =
        .ok (entry.descriptor, p2, sig) := by
  intro data pointer entry p2 sig h
  obtain ⟨hparse, hdata, hdesc⟩ := phase1Step_inv data pointer entry p2 sig h
  obtain ⟨-, -, hh⟩ :=
    parseLocalHeader_ok_inv (data.drop pointer) entry.localheader hparse
  refine ⟨?_, hdata, hdesc⟩
  rw [hh]
  rfl

/-- Witness for C5 at the single entry of `scenarioA` (cursor 0 to 45). -/
theorem claim_C5_header_length_witness :
    entryA.localheader.length =
      30 + entryA.localheader.filename_length +
        entryA.localheader.extra_field_length ∧
    entryA.filedata =
      listSlice scenarioA (0 + entryA.localheader.length)
        (0 + entryA.localheader.length + entryA.localheader.compressed_size) ∧
    descriptorStep scenarioA
      (0 + entryA.localheader.length + entryA.localheader.compressed_size) =
      .ok (entryA.descriptor, 45, cdSig) :=
  claim_C5_header_length scenarioA 0 entryA 45 cdSig rfl

/-- C7: a local header whose filename-length field is zero parses
successfully with an absent (empty) filename — no Truncated and no
SignatureMismatch — and likewise a zero extra-field length yields an absent
extra field. -/
theorem claim_C7_zero_filename_length :
    ∀ data, listSlice data 0 4 = localSig → 30 ≤ data.length →
      u16At data 26 = 0 →
      parseLocalHeader data = .ok (localHeaderOf data) ∧
      (localHeaderOf data).filename = none ∧
      (localHeaderOf data).filename_length = 0 ∧
      (u16At data 28 = 0 → (localHeaderOf data).extra_field = none) := by
  intro data hsig hlen hfn
  refine ⟨parseLocalHeader_eq_ok data hsig hlen, ?_, ?_, ?_⟩
  · simp only [localHeaderOf]
    rw [hfn]
    rfl
  · simp only [localHeaderOf]
    exact hfn
  · intro hex
    simp only [localHeaderOf]
    rw [hex]
    rfl

/-- Witness for C7 at the 30-byte header with empty variable fields. -/
theorem claim_C7_zero_filename_length_witness :
    parseLocalHeader emptyNameHdrBuf = .ok (localHeaderOf emptyNameHdrBuf) ∧
    (localHeaderOf emptyNameHdrBuf).filename = none ∧
    (localHeaderOf emptyNameHdrBuf).filename_length = 0 ∧
    (u16At emptyNameHdrBuf 28 = 0 →
      (localHeaderOf emptyNameHdrBuf).extra_field = none) :=
  claim_C7_zero_filename_length emptyNameHdrBuf (by decide) (by decide) (by decide)

/-- C2 counterexample: the claim says a declared filename length exceeding
the remaining bytes fails with a Truncated error at the filename read.  On
`truncatedNameBuf` (fixed part complete, `filename_length = 5`, two bytes
left) parsing instead succeeds and stores the silently shortened filename
`[97, 98]`. -/
theorem claim_C2_truncated_name_counterexample :
    parseLocalHeader truncatedNameBuf = .ok truncHdr ∧
    truncHdr.filename_length = 5 ∧
    truncHdr.filename = some [97, 98] :=
  ⟨rfl, rfl, rfl⟩

/-- C2 amended: only the fixed-width `struct.unpack` reads fail on a short
buffer; the variable-length filename read is a plain Python slice, so when
the declared filename length exceeds the bytes remaining after the 30-byte
fixed part, parsing succeeds and the filename is silently shortened to
exactly the bytes that remain. -/
theorem claim_C2_truncated_name_amended :
    ∀ data fn, listSlice data 0 4 = localSig → 30 ≤ data.length →
      u16At data 26 = fn → data.length < 30 + fn →
      parseLocalHeader data = .ok (localHeaderOf data) ∧
      (localHeaderOf data).filename = some (data.drop 30) ∧
      (data.drop 30).length < fn := by
  intro data fn hsig hlen hfn hshort
  refine ⟨parseLocalHeader_eq_ok data hsig hlen, ?_, ?_⟩
  · simp only [localHeaderOf, hfn]
    rw [if_pos (by omega)]
    congr 1
    unfold listSlice
    apply List.take_of_length_le
    rw [List.length_drop]
    omega
  · rw [List.length_drop]
    omega

/-- Witness for the amended C2 at `truncatedNameBuf`. -/
theorem claim_C2_truncated_name_amended_witness :
    parseLocalHeader truncatedNameBuf = .ok (localHeaderOf truncatedNameBuf) ∧
    (localHeaderOf truncatedNameBuf).filename =
      some (truncatedNameBuf.drop 30) ∧
    (truncatedNameBuf.drop 30).length < 5 :=
  claim_C2_truncated_name_amended truncatedNameBuf 5 (by decide) (by decide)
    (by decide) (by decide)

/-- The header parsed from `setFlagBit0 localHdrA`: flag becomes 1 and
`encrypted` becomes true; every other field matches `hdrA`. -/
def hdrAEnc : ZipLocalHeader := { hdrA with flag := 1, encrypted := true }

/-- C8 counterexample: the claim says setting flag bit 0 changes `encrypted`
to true and changes no other field of the parsed entry.  Parsing `localHdrA`
with bit 0 of its flag set shows the stored `flag` field — a field of the
parsed entry distinct from `encrypted` — changes from 0 to 1 as well. -/
theorem claim_C8_encrypted_bit_counterexample :
    parseLocalHeader localHdrA = .ok hdrA ∧
    parseLocalHeader (setFlagBit0 localHdrA) = .ok hdrAEnc ∧
    hdrAEnc.encrypted = true ∧
    hdrAEnc.flag ≠ hdrA.flag :=
  ⟨rfl, rfl, rfl, by decide⟩

/-- C8 amended: `encrypted` is true exactly when bit 0 of the flag field is
set, and setting flag bit 0 on an otherwise fixed header turns `encrypted`
to true while changing no field of the parsed entry other than the flag
bitfield itself. -/
theorem claim_C8_encrypted_bit_amended :
    ∀ data h, parseLocalHeader data = .ok h →
      h.encrypted = (h.flag &&& 1 != 0) ∧
      ∃ h2, parseLocalHeader (setFlagBit0 data) = .ok h2 ∧
        h2.encrypted = true ∧
        h2.signature = h.signature ∧
        h2.version = h.version ∧
        h2.compression_method = h.compression_method ∧
        h2.last_modify_time = h.last_modify_time ∧
        h2.last_modify_date = h.last_modify_date ∧
        h2.crc32 = h.crc32 ∧
        h2.compressed_size = h.compressed_size ∧
        h2.uncompressed_size = h.uncompressed_size ∧
        h2.filename_length = h.filename_length ∧
        h2.extra_field_length = h.extra_field_length ∧
        h2.filename = h.filename ∧
        h2.extra_field = h.extra_field ∧
        h2.length = h.length := by
  intro data h hp
  obtain ⟨hsig, hlen, hh⟩ := parseLocalHeader_ok_inv data h hp
  subst hh
  have hset : setFlagBit0 data = data.set 6 (2 * (byteAt data 6 / 2) + 1) := rfl
  have hlen2 : 30 ≤ (setFlagBit0 data).length := by
    rw [hset, List.length_set]
    exact hlen
  have hsig2 : listSlice (setFlagBit0 data) 0 4 = localSig := by
    rw [hset, listSlice_set_outside data 6 _ 0 4 (Or.inr (by omega))]
    exact hsig
  have hfn : u16At (setFlagBit0 data) 26 = u16At data 26 := by
    rw [hset]
    exact u16At_set_ne data 6 26 _ (by omega) (by omega)
  have hex : u16At (setFlagBit0 data) 28 = u16At data 28 := by
    rw [hset]
    exact u16At_set_ne data 6 28 _ (by omega) (by omega)
  refine ⟨rfl, localHeaderOf (setFlagBit0 data),
    parseLocalHeader_eq_ok _ hsig2 hlen2, ?_, ?_, ?_, ?_, ?_, ?_, ?_, ?_, ?_,
    ?_, ?_, ?_, ?_, ?_⟩
  · simp only [localHeaderOf]
    have hflag : u16At (setFlagBit0 data) 6 =
        2 * (byteAt data 6 / 2) + 1 + 256 * byteAt data (6 + 1) := by
      rw [hset]
      unfold u16At
      rw [byteAt_set_self data 6 _ (by omega), byteAt_set_ne data 6 7 _ (by omega)]
    rw [hflag, Nat.and_one_is_mod]
    simp only [bne_iff_ne, ne_eq]
    omega
  · simp only [localHeaderOf]
    rw [hset, listSlice_set_outside data 6 _ 0 4 (Or.inr (by omega))]
  · simp only [localHeaderOf]
    rw [hset, u16At_set_ne data 6 4 _ (by omega) (by omega)]
  · simp only [localHeaderOf]
    rw [hset, u16At_set_ne data 6 8 _ (by omega) (by omega)]
  · simp only [localHeaderOf]
    rw [hset, u16At_set_ne data 6 10 _ (by omega) (by omega)]
  · simp only [localHeaderOf]
    rw [hset, u16At_set_ne data 6 12 _ (by omega) (by omega)]
  · simp only [localHeaderOf]
    rw [hset, u32At_set_ne data 6 14 _ (by omega) (by omega) (by omega) (by omega)]
  · simp only [localHeaderOf]
    rw [hset, u32At_set_ne data 6 18 _ (by omega) (by omega) (by omega) (by omega)]
  · simp only [localHeaderOf]
    rw [hset, u32At_set_ne data 6 22 _ (by omega) (by omega) (by omega) (by omega)]
  · simp only [localHeaderOf]
    exact hfn
  · simp only [localHeaderOf]
    exact hex
  · simp only [localHeaderOf]
    rw [hfn, hset, listSlice_set_outside data 6 _ 30 _ (Or.inl (by omega))]
  · simp only [localHeaderOf]
    rw [hfn, hex, hset, listSlice_set_outside data 6 _ (30 + u16At data 26) _
      (Or.inl (by omega))]
  · simp only [localHeaderOf]
    rw [hfn, hex]

/-- Witness for the amended C8 at `localHdrA`. -/
theorem claim_C8_encrypted_bit_amended_witness :
    hdrA.encrypted = (hdrA.flag &&& 1 != 0) ∧
    ∃ h2, parseLocalHeader (setFlagBit0 localHdrA) = .ok h2 ∧
      h2.encrypted = true ∧
      h2.signature = hdrA.signature ∧
      h2.version = hdrA.version ∧
      h2.compression_method = hdrA.compression_method ∧
      h2.last_modify_time = hdrA.last_modify_time ∧
      h2.last_modify_date = hdrA.last_modify_date ∧
      h2.crc32 = hdrA.crc32 ∧
      h2.compressed_size = hdrA.compressed_size ∧
      h2.uncompressed_size = hdrA.uncompressed_size ∧
      h2.filename_length = hdrA.filename_length ∧
      h2.extra_field_length = hdrA.extra_field_length ∧
      h2.filename = hdrA.filename ∧
      h2.extra_field = hdrA.extra_field ∧
      h2.length = hdrA.length :=
  claim_C8_encrypted_bit_amended localHdrA hdrA rfl

end ZipWalker
